import Mathlib

/- Shallow embedding of src/hooks/useLiveSession.ts and the shared types of
   src/App.tsx (feynman-mirror repository): the live-session manager's
   playback scheduling, inbound message routing, transcription accumulation,
   tool-call handling, audio-only toggling and the connect/disconnect
   lifecycle, together with proofs of the specified properties. -/

set_option maxHeartbeats 1000000

/-- Connection states exposed to the UI (enum ConnectionState in src/App.tsx:
DISCONNECTED, CONNECTING, CONNECTED, ERROR). -/
inductive ConnectionState where
  | disconnected
  | connecting
  | connected
  | error
  deriving DecidableEq, Repr

/- ------------------------------------------------------------------ -/
/- Playback scheduler (useLiveSession.ts, onmessage audio branch)     -/
/- ------------------------------------------------------------------ -/

/-- One playback-scheduling step, embedding the scheduling lines of the
onmessage handler in useLiveSession.ts:
  nextStartTimeRef.current = Math.max(nextStartTimeRef.current, now);
  source.start(nextStartTimeRef.current);
  nextStartTimeRef.current += buffer.duration;
Given the cursor `nextStart`, the output clock reading `now` and the decoded
buffer duration `d`, it returns the scheduled start time and the advanced
cursor. -/
def scheduleStep (nextStart now d : ℚ) : ℚ × ℚ :=
  let startAt := max nextStart now
  (startAt, startAt + d)

/-- Start times produced by scheduling a sequence of decoded buffers in
enqueue order; each list element is the pair (output clock reading at the
moment of scheduling, buffer duration). -/
def schedStarts (nextStart : ℚ) : List (ℚ × ℚ) → List ℚ
  | [] => []
  | (now, d) :: rest =>
    let p := scheduleStep nextStart now d
    p.1 :: schedStarts p.2 rest

/-- Value of the `nextStartTimeRef` cursor after scheduling a sequence of
decoded buffers. -/
def schedCursor (nextStart : ℚ) : List (ℚ × ℚ) → ℚ
  | [] => nextStart
  | (now, d) :: rest => schedCursor (scheduleStep nextStart now d).2 rest

lemma schedStarts_cons (init now d : ℚ) (rest : List (ℚ × ℚ)) :
    schedStarts init ((now, d) :: rest)
      = max init now :: schedStarts (max init now + d) rest := rfl

lemma schedCursor_cons (init now d : ℚ) (rest : List (ℚ × ℚ)) :
    schedCursor init ((now, d) :: rest) = schedCursor (max init now + d) rest := rfl

lemma le_schedStarts_head (init : ℚ) (e : ℚ × ℚ) (rest : List (ℚ × ℚ)) :
    init ≤ (schedStarts init (e :: rest)).getD 0 0 := by
  cases e with
  | mk now d =>
    rw [schedStarts_cons]
    simp

lemma schedStarts_adjacent : ∀ (evs : List (ℚ × ℚ)) (init : ℚ) (k : ℕ),
    k + 1 < evs.length →
    (schedStarts init evs).getD k 0 + (evs.getD k (0, 0)).2
      ≤ (schedStarts init evs).getD (k + 1) 0
  | [], _, _, h => by simp at h
  | (now, d) :: rest, init, 0, h => by
    match rest, h with
    | e :: rest', _ =>
      rw [schedStarts_cons]
      simpa using le_schedStarts_head (max init now + d) e rest'
  | (now, d) :: rest, init, k + 1, h => by
    have hk : k + 1 < rest.length := by simpa using h
    rw [schedStarts_cons]
    simpa using schedStarts_adjacent rest (max init now + d) k hk

lemma cursor_step_le (ns now d : ℚ) (hd : 0 ≤ d) : ns ≤ max ns now + d :=
  le_add_of_le_of_nonneg (le_max_left _ _) hd

lemma schedCursor_append_single (init : ℚ) (l : List (ℚ × ℚ)) (e : ℚ × ℚ) :
    schedCursor init (l ++ [e]) = max (schedCursor init l) e.1 + e.2 := by
  induction l generalizing init with
  | nil =>
    cases e with
    | mk now d => simp [schedCursor, scheduleStep]
  | cons a t ih =>
    cases a with
    | mk now d =>
      rw [List.cons_append, schedCursor_cons, schedCursor_cons, ih]

lemma schedCursor_take_mono (init : ℚ) (evs : List (ℚ × ℚ))
    (hd : ∀ e ∈ evs, 0 ≤ e.2) (j : ℕ) :
    schedCursor init (evs.take j) ≤ schedCursor init (evs.take (j + 1)) := by
  by_cases hj : j < evs.length
  · have hget : evs.take (j + 1) = evs.take j ++ [evs.get ⟨j, hj⟩] := by
      rw [List.take_succ]
      simp [List.getElem?_eq_getElem hj]
    rw [hget, schedCursor_append_single]
    exact cursor_step_le _ _ _ (hd _ (List.get_mem evs j hj))
  · have hlen : evs.length ≤ j := Nat.le_of_not_lt hj
    rw [List.take_of_length_le hlen, List.take_of_length_le (hlen.trans (Nat.le_succ j))]

lemma getD_duration_nonneg (evs : List (ℚ × ℚ)) (hd : ∀ e ∈ evs, 0 ≤ e.2)
    (k : ℕ) (hk : k < evs.length) : 0 ≤ (evs.getD k (0, 0)).2 := by
  rw [List.getD_eq_getElem evs (0, 0) hk]
  exact hd _ (List.getElem_mem hk)

/-- C1: each decoded inbound buffer is scheduled at max(nextStart, output
clock time) with the cursor advanced by the buffer duration (clause 1, the
embedded step); consequently, for non-negative durations, consecutive start
times satisfy start(k+1) ≥ start(k) + d(k) (clause 2), the scheduled start
times are non-decreasing (clause 3), and the nextStart cursor is monotonically
non-decreasing over the lifetime of the session (clause 4). -/
theorem c1_playback_scheduling_monotone (init : ℚ) (evs : List (ℚ × ℚ))
    (hd : ∀ e ∈ evs, 0 ≤ e.2) :
    (∀ ns now d : ℚ, scheduleStep ns now d = (max ns now, max ns now + d))
    ∧ (∀ k, k + 1 < evs.length →
        (schedStarts init evs).getD k 0 + (evs.getD k (0, 0)).2
          ≤ (schedStarts init evs).getD (k + 1) 0)
    ∧ (∀ k, k + 1 < evs.length →
        (schedStarts init evs).getD k 0 ≤ (schedStarts init evs).getD (k + 1) 0)
    ∧ (∀ j : ℕ, schedCursor init (evs.take j) ≤ schedCursor init (evs.take (j + 1))) := by
  refine ⟨fun ns now d => rfl, fun k hk => schedStarts_adjacent evs init k hk,
    fun k hk => ?_, fun j => schedCursor_take_mono init evs hd j⟩
  have h1 := schedStarts_adjacent evs init k hk
  have h0 : 0 ≤ (evs.getD k (0, 0)).2 :=
    getD_duration_nonneg evs hd k (Nat.lt_of_succ_lt hk)
  linarith

/-- Witness for C1 at the concrete enqueue sequence of two buffers of
durations 1 and 2 scheduled at clock time 0: the hypothesis holds and the
second start is at least the first start plus the first duration. -/
theorem c1_playback_witness :
    (∀ e ∈ [((0 : ℚ), (1 : ℚ)), ((0 : ℚ), (2 : ℚ))], 0 ≤ e.2)
    ∧ (schedStarts 0 [((0 : ℚ), (1 : ℚ)), ((0 : ℚ), (2 : ℚ))]).getD 0 0
        + ([((0 : ℚ), (1 : ℚ)), ((0 : ℚ), (2 : ℚ))].getD 0 (0, 0)).2
      ≤ (schedStarts 0 [((0 : ℚ), (1 : ℚ)), ((0 : ℚ), (2 : ℚ))]).getD 1 0 :=
  ⟨by decide,
   (c1_playback_scheduling_monotone 0 [((0 : ℚ), (1 : ℚ)), ((0 : ℚ), (2 : ℚ))]
     (by decide)).2.1 0 (by decide)⟩

/- ------------------------------------------------------------------ -/
/- Tool-call handling (useLiveSession.ts, onmessage toolCall branch)  -/
/- ------------------------------------------------------------------ -/

/-- Decoded arguments of an updateClarity call (interface ClarityUpdate in
src/App.tsx: score is a number, reasoning a string, language an optional
string); the source casts fc.args to this shape without validation. -/
structure ClarityUpdate where
  score : Int
  reasoning : String
  language : Option String
  deriving DecidableEq, Repr

/-- One inbound function-call request (an element of
msg.toolCall.functionCalls); args is only ever read for calls whose name
matches the clarity tool. -/
structure FunctionCall where
  name : String
  id : String
  args : ClarityUpdate
  deriving DecidableEq, Repr

/-- Observable effects of the toolCall branch: a ClarityState published to
the UI collaborator (the onClarityUpdate callback) or an acknowledgement
sent back on the channel (sendToolResponse with the invocation id, the
function name and the constant result string). -/
inductive ToolEvent where
  | publish (u : ClarityUpdate)
  | ack (id : String) (name : String) (result : String)
  deriving DecidableEq, Repr

/-- Embeds the toolCall loop of onmessage: for each function call, if its
name is exactly updateClarity, publish the cast args via onClarityUpdate and
send one acknowledgement keyed by the invocation id; any other name produces
no effect and the loop continues with the remaining calls. -/
def handleToolCalls : List FunctionCall → List ToolEvent
  | [] => []
  | fc :: rest =>
    if fc.name = "updateClarity" then
      ToolEvent.publish fc.args :: ToolEvent.ack fc.id fc.name "ok" :: handleToolCalls rest
    else
      handleToolCalls rest

/-- Recognizer for an acknowledgement referencing invocation id i. -/
def isAckFor (i : String) : ToolEvent → Bool
  | ToolEvent.ack j _ _ => j == i
  | _ => false

lemma handleToolCalls_append (a b : List FunctionCall) :
    handleToolCalls (a ++ b) = handleToolCalls a ++ handleToolCalls b := by
  induction a with
  | nil => rfl
  | cons fc rest ih =>
    by_cases h : fc.name = "updateClarity" <;>
      simp [handleToolCalls, h, ih]

/-- C5: every inbound function call whose name matches the clarity-update
tool has its decoded ClarityState published to the UI collaborator, and the
number of acknowledgements referencing a given invocation id equals the
number of matching calls carrying that id — each invocation is acknowledged
exactly once, independent of whatever is published afterwards. -/
theorem c5_tool_publish_and_ack_once (fcs : List FunctionCall) (i : String) :
    ((handleToolCalls fcs).filter (isAckFor i)).length
      = (fcs.filter (fun fc => fc.name == "updateClarity" && fc.id == i)).length
    ∧ (∀ fc ∈ fcs, fc.name = "updateClarity" →
        ToolEvent.publish fc.args ∈ handleToolCalls fcs) := by
  constructor
  · induction fcs with
    | nil => rfl
    | cons fc rest ih =>
      by_cases hn : fc.name = "updateClarity"
      · by_cases hi : fc.id = i <;>
          simp [handleToolCalls, hn, hi, isAckFor, ih]
      · simp [handleToolCalls, hn, isAckFor, ih]
  · intro fc hfc hname
    induction fcs with
    | nil => simp at hfc
    | cons g rest ih =>
      rcases List.mem_cons.mp hfc with hg | hrest
      · subst hg
        simp [handleToolCalls, hname]
      · by_cases hgn : g.name = "updateClarity" <;>
          simp [handleToolCalls, hgn, ih hrest]

/-- Sample tool-call frame: the spec scenario invocation followed by a call
with a non-matching name. -/
def sampleToolCalls : List FunctionCall :=
  [⟨"updateClarity", "call-1", ⟨42, "too much jargon", some "English"⟩⟩,
   ⟨"otherTool", "call-2", ⟨0, "", none⟩⟩]

/-- Witness for C5 at the sample frame: the matching invocation with id
call-1 is acknowledged exactly once and its ClarityState is published. -/
theorem c5_tool_witness :
    ((handleToolCalls sampleToolCalls).filter (isAckFor "call-1")).length
        = (sampleToolCalls.filter
            (fun fc => fc.name == "updateClarity" && fc.id == "call-1")).length
    ∧ ToolEvent.publish ⟨42, "too much jargon", some "English"⟩
        ∈ handleToolCalls sampleToolCalls :=
  ⟨(c5_tool_publish_and_ack_once sampleToolCalls "call-1").1,
   (c5_tool_publish_and_ack_once sampleToolCalls "call-1").2
     ⟨"updateClarity", "call-1", ⟨42, "too much jargon", some "English"⟩⟩
     (by decide) rfl⟩

/-- C10: a function call whose name is not updateClarity is silently
dropped — the events of a frame containing it are exactly the events of the
frame with that call removed (so no ClarityState is published and no
acknowledgement is sent for it, and the remaining calls are processed
unaffected); a frame holding only such a call produces no effect at all. -/
theorem c10_unknown_tool_dropped (pre post : List FunctionCall)
    (fc : FunctionCall) (h : fc.name ≠ "updateClarity") :
    handleToolCalls (pre ++ fc :: post) = handleToolCalls (pre ++ post)
    ∧ handleToolCalls [fc] = [] := by
  constructor
  · rw [handleToolCalls_append, handleToolCalls_append]
    simp [handleToolCalls, h]
  · simp [handleToolCalls, h]

/-- Witness for C10: dropping the non-matching second call of the sample
frame leaves exactly the events of the matching first call. -/
theorem c10_unknown_tool_witness :
    (FunctionCall.name ⟨"otherTool", "call-2", ⟨0, "", none⟩⟩ ≠ "updateClarity")
    ∧ handleToolCalls sampleToolCalls
        = handleToolCalls [⟨"updateClarity", "call-1", ⟨42, "too much jargon", some "English"⟩⟩] :=
  ⟨by decide,
   (c10_unknown_tool_dropped
     [⟨"updateClarity", "call-1", ⟨42, "too much jargon", some "English"⟩⟩] []
     ⟨"otherTool", "call-2", ⟨0, "", none⟩⟩ (by decide)).1⟩

/- ------------------------------------------------------------------ -/
/- Inbound message structure (LiveServerMessage as read by onmessage) -/
/- ------------------------------------------------------------------ -/

/-- Inline payload of a model-turn part; onmessage reads only its data
field (part.inlineData?.data). -/
structure InlineData where
  mimeType : Option String
  data : Option String
  deriving DecidableEq, Repr

/-- One part of a model turn; onmessage reads only part.inlineData. -/
structure TurnPart where
  inlineData : Option InlineData
  deriving DecidableEq, Repr

/-- Model turn carried by serverContent; the parts array may be absent. -/
structure ModelTurn where
  parts : Option (List TurnPart)
  deriving DecidableEq, Repr

/-- Transcription fragment object; onmessage reads its text field. -/
structure Transcription where
  text : Option String
  deriving DecidableEq, Repr

/-- The serverContent fields onmessage reads: modelTurn (audio),
inputTranscription, outputTranscription and the turnComplete flag. -/
structure ServerContent where
  modelTurn : Option ModelTurn
  inputTranscription : Option Transcription
  outputTranscription : Option Transcription
  turnComplete : Option Bool
  deriving DecidableEq, Repr

/-- Payload of msg.toolCall (the functionCalls array). -/
structure ToolCallPayload where
  functionCalls : List FunctionCall
  deriving DecidableEq, Repr

/-- The fields of an inbound LiveServerMessage that onmessage reads. -/
structure LiveServerMessage where
  toolCall : Option ToolCallPayload
  serverContent : Option ServerContent
  deriving DecidableEq, Repr

/-- Embeds the audio extraction expression of onmessage:
msg.serverContent?.modelTurn?.parts?.[0]?.inlineData?.data — only index 0 of
the parts array is consulted. -/
def extractAudioData (msg : LiveServerMessage) : Option String :=
  ((((msg.serverContent.bind ServerContent.modelTurn).bind
      ModelTurn.parts).bind List.head?).bind TurnPart.inlineData).bind InlineData.data

/-- Playback bookkeeping touched by the audio branch: the nextStart cursor
and the list of scheduled (startTime, payload) pairs. -/
structure PlaybackState where
  nextStart : ℚ
  scheduled : List (ℚ × String)
  deriving DecidableEq, Repr

/-- Embeds the audio branch of onmessage as one synchronous step: the branch
runs only when the extracted audio data is truthy (present and non-empty)
and the output audio context reference is non-null; it then schedules the
decoded buffer via the scheduleStep recurrence. `dur` gives the duration of
the buffer decoded from a payload (the decoder itself lives in the
services/audioUtils module). `octxLive` is whether
outputAudioContextRef.current is non-null. -/
def handleAudioMsg (dur : String → ℚ) (msg : LiveServerMessage)
    (octxLive : Bool) (now : ℚ) (s : PlaybackState) : PlaybackState :=
  match extractAudioData msg, octxLive with
  | some data, true =>
    if data = "" then s
    else
      let startAt := max s.nextStart now
      ⟨startAt + dur data, s.scheduled ++ [(startAt, data)]⟩
  | _, _ => s

/-- C9: the audio branch looks only at the first part of the model turn —
replacing every part after the first changes nothing about the extracted
audio payload (clause 1), and a frame whose first part carries no inline
data schedules no playback at all (clause 2). -/
theorem c9_first_part_only (tc : Option ToolCallPayload)
    (itr otr : Option Transcription) (tcp : Option Bool)
    (p : TurnPart) (rest rest' : List TurnPart) (dur : String → ℚ)
    (octxLive : Bool) (now : ℚ) (s : PlaybackState) :
    extractAudioData ⟨tc, some ⟨some ⟨some (p :: rest)⟩, itr, otr, tcp⟩⟩
      = extractAudioData ⟨tc, some ⟨some ⟨some (p :: rest')⟩, itr, otr, tcp⟩⟩
    ∧ (p.inlineData.bind InlineData.data = none →
        handleAudioMsg dur ⟨tc, some ⟨some ⟨some (p :: rest)⟩, itr, otr, tcp⟩⟩
          octxLive now s = s) := by
  constructor
  · simp [extractAudioData]
  · intro h
    simp [handleAudioMsg, extractAudioData, h]

/-- Witness for C9: a frame whose first part has no inline data leaves the
playback state untouched even though a later part carries audio bytes. -/
theorem c9_first_part_witness :
    ((⟨none⟩ : TurnPart).inlineData.bind InlineData.data = none)
    ∧ handleAudioMsg (fun _ => 1)
        ⟨none, some ⟨some ⟨some [⟨none⟩, ⟨some ⟨some "audio/pcm", some "QUJD"⟩⟩]⟩,
          none, none, none⟩⟩ true 0 ⟨0, []⟩ = ⟨0, []⟩ :=
  ⟨rfl,
   (c9_first_part_only none none none none ⟨none⟩
     [⟨some ⟨some "audio/pcm", some "QUJD"⟩⟩] [] (fun _ => 1) true 0 ⟨0, []⟩).2 rfl⟩

/- ------------------------------------------------------------------ -/
/- Transcription handling (useLiveSession.ts, onmessage tail)         -/
/- ------------------------------------------------------------------ -/

/-- The two per-session accumulators currentInputTranscription (user) and
currentOutputTranscription (model). -/
structure TransState where
  inputAcc : String
  outputAcc : String
  deriving DecidableEq, Repr

/-- A whole-utterance transcription event delivered to the UI collaborator
via the onTranscription callback, tagged by direction (true = user). -/
inductive UiEvent where
  | transcript (text : String) (isUser : Bool)
  deriving DecidableEq, Repr

/-- True for user-direction transcription events. -/
def isUserEvent : UiEvent → Bool
  | UiEvent.transcript _ u => u

/-- True for model-direction transcription events. -/
def isModelEvent : UiEvent → Bool
  | UiEvent.transcript _ u => !u

/-- Inbound user-direction fragment text of a message, with the JavaScript
truthiness collapse: an absent field and the empty string both behave as
no fragment (msg.serverContent?.inputTranscription?.text). -/
def transTextIn (msg : LiveServerMessage) : String :=
  ((msg.serverContent.bind ServerContent.inputTranscription).bind
    Transcription.text).getD ""

/-- Inbound model-direction fragment text of a message
(msg.serverContent?.outputTranscription?.text). -/
def transTextOut (msg : LiveServerMessage) : String :=
  ((msg.serverContent.bind ServerContent.outputTranscription).bind
    Transcription.text).getD ""

/-- Whether a message carries the turn-boundary marker
(msg.serverContent?.turnComplete). -/
def isTurnComplete (msg : LiveServerMessage) : Bool :=
  (msg.serverContent.bind ServerContent.turnComplete).getD false

/-- Removal of leading and trailing whitespace, modelling the JavaScript
String.prototype.trim() applied by the flush guard. -/
def strTrim (s : String) : String :=
  String.mk (((s.data.dropWhile Char.isWhitespace).reverse.dropWhile
    Char.isWhitespace).reverse)

/-- Embeds the turn-complete block of onmessage: each accumulator is flushed
only when its trimmed content is truthy (if (acc.trim())), emitting the
untrimmed accumulator text via onTranscription and resetting that
accumulator; the user direction is checked first. -/
def flushTurn (s : TransState) : TransState × List UiEvent :=
  let inKeep : Bool := strTrim s.inputAcc ≠ ""
  let outKeep : Bool := strTrim s.outputAcc ≠ ""
  (⟨if inKeep then "" else s.inputAcc, if outKeep then "" else s.outputAcc⟩,
   (if inKeep then [UiEvent.transcript s.inputAcc true] else [])
     ++ (if outKeep then [UiEvent.transcript s.outputAcc false] else []))

/-- Embeds the transcription tail of onmessage for one message: append the
truthy fragments to their accumulators, then flush if the message carries
the turn-boundary marker. -/
def handleTranscripts (msg : LiveServerMessage) (s : TransState) :
    TransState × List UiEvent :=
  let s1 := if transTextIn msg ≠ "" then
      { s with inputAcc := s.inputAcc ++ transTextIn msg } else s
  let s2 := if transTextOut msg ≠ "" then
      { s1 with outputAcc := s1.outputAcc ++ transTextOut msg } else s1
  if isTurnComplete msg then flushTurn s2 else (s2, [])

/-- Runs the transcription tail over a sequence of inbound messages in
arrival order, accumulating the emitted events. -/
def runTranscripts (s : TransState) : List LiveServerMessage → TransState × List UiEvent
  | [] => (s, [])
  | m :: rest =>
    let p := handleTranscripts m s
    let q := runTranscripts p.1 rest
    (q.1, p.2 ++ q.2)

/-- Concatenation of a list of strings with no separator. -/
def concatAll : List String → String
  | [] => ""
  | a :: rest => a ++ concatAll rest

lemma string_append_empty (s : String) : s ++ "" = s := by
  cases s with
  | mk l =>
    show String.mk (l ++ []) = String.mk l
    rw [List.append_nil]

lemma string_append_assoc (a b c : String) : a ++ b ++ c = a ++ (b ++ c) := by
  cases a with
  | mk la =>
    cases b with
    | mk lb =>
      cases c with
      | mk lc =>
        show String.mk (la ++ lb ++ lc) = String.mk (la ++ (lb ++ lc))
        rw [List.append_assoc]

lemma handleTranscripts_no_turn (m : LiveServerMessage) (s : TransState)
    (hm : isTurnComplete m = false) :
    handleTranscripts m s
      = (⟨s.inputAcc ++ transTextIn m, s.outputAcc ++ transTextOut m⟩, []) := by
  by_cases hin : transTextIn m = "" <;> by_cases hout : transTextOut m = "" <;>
    simp [handleTranscripts, hm, hin, hout, string_append_empty]

lemma runTranscripts_no_turn (msgs : List LiveServerMessage) :
    (∀ m ∈ msgs, isTurnComplete m = false) → ∀ s : TransState,
    runTranscripts s msgs
      = (⟨s.inputAcc ++ concatAll (msgs.map transTextIn),
          s.outputAcc ++ concatAll (msgs.map transTextOut)⟩, []) := by
  induction msgs with
  | nil =>
    intro _ s
    simp [runTranscripts, concatAll, string_append_empty]
  | cons m rest ih =>
    intro hm s
    have h1 := handleTranscripts_no_turn m s (hm m (List.mem_cons_self m rest))
    have h2 := ih (fun x hx => hm x (List.mem_cons_of_mem m hx))
    simp [runTranscripts, h1, h2, concatAll, string_append_assoc]

/-- Inbound message carrying the single user-direction fragment consisting
of one space character. -/
def fragMsgSpace : LiveServerMessage :=
  ⟨none, some ⟨none, some ⟨some " "⟩, none, none⟩⟩

/-- Inbound message carrying only the turn-boundary marker. -/
def turnMsg : LiveServerMessage :=
  ⟨none, some ⟨none, none, none, some true⟩⟩

/-- Counterexample to C4 as stated: after the fragment consisting of one
space character arrives, the user accumulator is non-empty at the
turn-boundary marker, yet the flush emits no event at all and the
accumulator is left unreset (it still holds the space after the boundary),
because the source guards the flush with if (acc.trim()). -/
theorem c4_counterexample_whitespace :
    (runTranscripts ⟨"", ""⟩ [fragMsgSpace]).1.inputAcc = " "
    ∧ (" " : String) ≠ ""
    ∧ (runTranscripts ⟨"", ""⟩ [fragMsgSpace, turnMsg]).2 = []
    ∧ (runTranscripts ⟨"", ""⟩ [fragMsgSpace, turnMsg]).1.inputAcc = " " := by
  refine ⟨rfl, by decide, rfl, rfl⟩

/-- C4 (amended): on a turn-boundary marker, each accumulator whose content
is non-whitespace (truthy after trimming) is flushed as exactly one
direction-tagged event whose text is the full untrimmed accumulator, and
that accumulator is reset to empty; an accumulator that trims to empty
(empty or whitespace-only) produces no event and is left unchanged.
Fragments are concatenated into the accumulators in arrival order with no
inserted separators, and no event is emitted before a boundary. -/
theorem c4_amended_trim_flush (msgs : List LiveServerMessage)
    (hm : ∀ m ∈ msgs, isTurnComplete m = false) (s0 s : TransState) :
    ((runTranscripts s0 msgs).1.inputAcc
        = s0.inputAcc ++ concatAll (msgs.map transTextIn))
    ∧ ((runTranscripts s0 msgs).1.outputAcc
        = s0.outputAcc ++ concatAll (msgs.map transTextOut))
    ∧ ((runTranscripts s0 msgs).2 = [])
    ∧ (strTrim s.inputAcc ≠ "" →
        (flushTurn s).2.filter isUserEvent = [UiEvent.transcript s.inputAcc true]
        ∧ (flushTurn s).1.inputAcc = "")
    ∧ (strTrim s.inputAcc = "" →
        (flushTurn s).2.filter isUserEvent = [] ∧ (flushTurn s).1.inputAcc = s.inputAcc)
    ∧ (strTrim s.outputAcc ≠ "" →
        (flushTurn s).2.filter isModelEvent = [UiEvent.transcript s.outputAcc false]
        ∧ (flushTurn s).1.outputAcc = "")
    ∧ (strTrim s.outputAcc = "" →
        (flushTurn s).2.filter isModelEvent = [] ∧ (flushTurn s).1.outputAcc = s.outputAcc) := by
  have hrun := runTranscripts_no_turn msgs hm s0
  refine ⟨by rw [hrun], by rw [hrun], by rw [hrun], ?_, ?_, ?_, ?_⟩ <;>
    intro h <;>
    by_cases hin : strTrim s.inputAcc = "" <;> by_cases hout : strTrim s.outputAcc = "" <;>
    simp_all [flushTurn, isUserEvent, isModelEvent]

/-- Witness for C4 (amended) at the spec scenario: the fragments "explains"
then "further" concatenate to "explainsfurther" with no separator, and the
flush of that accumulator emits exactly one user event carrying it and
resets the accumulator. -/
theorem c4_amended_witness :
    (∀ m ∈ [(⟨none, some ⟨none, some ⟨some "explains"⟩, none, none⟩⟩ : LiveServerMessage),
            ⟨none, some ⟨none, some ⟨some "further"⟩, none, none⟩⟩],
        isTurnComplete m = false)
    ∧ strTrim "explainsfurther" ≠ ""
    ∧ (runTranscripts ⟨"", ""⟩
        [⟨none, some ⟨none, some ⟨some "explains"⟩, none, none⟩⟩,
         ⟨none, some ⟨none, some ⟨some "further"⟩, none, none⟩⟩]).1.inputAcc
        = "" ++ concatAll
            ([(⟨none, some ⟨none, some ⟨some "explains"⟩, none, none⟩⟩ : LiveServerMessage),
              ⟨none, some ⟨none, some ⟨some "further"⟩, none, none⟩⟩].map transTextIn)
    ∧ (flushTurn ⟨"explainsfurther", ""⟩).2.filter isUserEvent
        = [UiEvent.transcript "explainsfurther" true]
    ∧ (flushTurn ⟨"explainsfurther", ""⟩).1.inputAcc = "" := by
  refine ⟨by decide, by decide, ?_, ?_, ?_⟩
  · exact (c4_amended_trim_flush _ (by decide) ⟨"", ""⟩ ⟨"explainsfurther", ""⟩).1
  · exact ((c4_amended_trim_flush ([] : List LiveServerMessage) (by decide)
      ⟨"", ""⟩ ⟨"explainsfurther", ""⟩).2.2.2.1 (by decide)).1
  · exact ((c4_amended_trim_flush ([] : List LiveServerMessage) (by decide)
      ⟨"", ""⟩ ⟨"explainsfurther", ""⟩).2.2.2.1 (by decide)).2

/- ------------------------------------------------------------------ -/
/- Session lifecycle (disconnect, onerror, connect guard)             -/
/- ------------------------------------------------------------------ -/

/-- A Web Audio context handle: its construction sample rate and whether
close() has been awaited on it. -/
structure AudioCtx where
  sampleRate : ℕ
  closed : Bool
  deriving DecidableEq, Repr

/-- An AudioBufferSourceNode playback handle; stopped records whether it has
already been stopped (or has finished). -/
structure SourceNode where
  stopped : Bool
  deriving DecidableEq, Repr

/-- The mutable refs of the hook that connect/disconnect manage, plus the
connection state exposed through setConnectionState. mediaStream counts the
tracks of the captured stream; nextStart is nextStartTimeRef.current, which
disconnect does not touch. -/
structure ManagerState where
  mediaStream : Option ℕ
  videoInterval : Option ℕ
  inputCtx : Option AudioCtx
  outputCtx : Option AudioCtx
  sourceNodes : List SourceNode
  sessionRef : Option Unit
  connectionState : ConnectionState
  nextStart : ℚ
  deriving DecidableEq, Repr

/-- Awaiting close() on an AudioContext: rejects (throws) if the context is
already closed, otherwise marks it closed. -/
def closeCtx (c : AudioCtx) : Except String AudioCtx :=
  if c.closed then Except.error "InvalidStateError"
  else Except.ok { c with closed := true }

/-- Calling stop() on a source node: throws if it is already stopped. -/
def stopSource (n : SourceNode) : Except String SourceNode :=
  if n.stopped then Except.error "InvalidStateError"
  else Except.ok { n with stopped := true }

/-- The try/catch wrapper of disconnect around source.stop(): a throwing
stop is swallowed as a no-op. -/
def stopSourceCaught (n : SourceNode) : SourceNode :=
  match stopSource n with
  | Except.ok n' => n'
  | Except.error _ => n

/-- Embeds disconnect() of useLiveSession.ts: stop and drop the media
stream, clear the video interval, close and drop the input context, then —
only under the output-context guard — stop every tracked source node
(errors swallowed), clear the set and close the output context, and finally
drop the session reference and set the connection state to DISCONNECTED.
The two close() awaits are outside any try/catch, so a rejection there
propagates as an error result. -/
def disconnect (s : ManagerState) : Except String ManagerState := do
  let s1 :=
    match s.mediaStream with
    | some _ => { s with mediaStream := none }
    | none => s
  let s2 :=
    match s1.videoInterval with
    | some _ => { s1 with videoInterval := none }
    | none => s1
  let s3 ←
    match s2.inputCtx with
    | some c => do
      let _ ← closeCtx c
      pure { s2 with inputCtx := none }
    | none => pure s2
  let s4 ←
    match s3.outputCtx with
    | some c => do
      let _ := s3.sourceNodes.map stopSourceCaught
      let _ ← closeCtx c
      pure { s3 with sourceNodes := ([] : List SourceNode), outputCtx := none }
    | none => pure s3
  pure { s4 with sessionRef := none, connectionState := ConnectionState.disconnected }

/-- The state disconnect() leaves behind: every resource handle dropped,
state DISCONNECTED, and the nextStart cursor untouched. -/
def teardownOf (s : ManagerState) : ManagerState :=
  ⟨none, none, none, none, [], none, ConnectionState.disconnected, s.nextStart⟩

/-- Invariant of every reachable hook state: a context reference, when
non-null, points to a context that is not yet closed (connect stores fresh
open contexts and disconnect nulls a reference in the same step that closes
its context), and source nodes are tracked only while the output context
reference is live. -/
def ctxRefsLive (s : ManagerState) : Bool :=
  (match s.inputCtx with
   | some c => !c.closed
   | none => true)
  && (match s.outputCtx with
      | some c => !c.closed
      | none => true)
  && (match s.outputCtx with
      | some _ => true
      | none => s.sourceNodes.isEmpty)

lemma disconnect_ok (s : ManagerState) (h : ctxRefsLive s = true) :
    disconnect s = Except.ok (teardownOf s) := by
  obtain ⟨ms, vi, ic, oc, sn, sr, cs, ns⟩ := s
  cases ms <;> cases vi <;> cases ic <;> cases oc <;>
    simp_all [ctxRefsLive, disconnect, closeCtx, teardownOf, List.isEmpty_iff,
      Bind.bind, Except.bind, Pure.pure, Except.pure]

/-- C6: from any reachable state (context references live, arbitrary source
nodes including already-stopped ones), disconnect() never throws: it
returns the torn-down state with every resource handle released and the
connection state DISCONNECTED, and running disconnect() again on that state
succeeds and changes nothing (idempotence). -/
theorem c6_disconnect_idempotent (s : ManagerState) (h : ctxRefsLive s = true) :
    disconnect s = Except.ok (teardownOf s)
    ∧ (teardownOf s).connectionState = ConnectionState.disconnected
    ∧ (teardownOf s).mediaStream = none
    ∧ (teardownOf s).videoInterval = none
    ∧ (teardownOf s).inputCtx = none
    ∧ (teardownOf s).outputCtx = none
    ∧ (teardownOf s).sourceNodes = []
    ∧ (teardownOf s).sessionRef = none
    ∧ disconnect (teardownOf s) = Except.ok (teardownOf s) := by
  refine ⟨disconnect_ok s h, rfl, rfl, rfl, rfl, rfl, rfl, rfl, ?_⟩
  exact disconnect_ok (teardownOf s) rfl

/-- A live mid-session state: captured stream, running frame timer, both
contexts open, one already-stopped and one playing source node tracked. -/
def sampleLiveState : ManagerState :=
  ⟨some 2, some 7, some ⟨16000, false⟩, some ⟨24000, false⟩,
   [⟨true⟩, ⟨false⟩], some (), ConnectionState.connected, 5⟩

/-- Witness for C6 at the live sample state, whose source set holds an
already-stopped handle: disconnect succeeds (the stop error is swallowed)
and a second disconnect is a no-op. -/
theorem c6_disconnect_witness :
    ctxRefsLive sampleLiveState = true
    ∧ disconnect sampleLiveState = Except.ok (teardownOf sampleLiveState)
    ∧ disconnect (teardownOf sampleLiveState) = Except.ok (teardownOf sampleLiveState) :=
  ⟨by decide,
   (c6_disconnect_idempotent sampleLiveState (by decide)).1,
   (c6_disconnect_idempotent sampleLiveState (by decide)).2.2.2.2.2.2.2.2⟩

/-- Embeds the onerror callback of the live-connect configuration:
setConnectionState(ConnectionState.ERROR) followed by disconnect(). -/
def onErrorHandler (s : ManagerState) : Except String ManagerState :=
  disconnect { s with connectionState := ConnectionState.error }

/-- Counterexample to C2 as stated: at a live connected state, the error
callback runs setConnectionState(ERROR) and then disconnect(), whose final
setConnectionState(DISCONNECTED) overwrites it — the state left exposed to
the UI is DISCONNECTED, not ERROR. -/
theorem c2_counterexample_final_state :
    onErrorHandler sampleLiveState = Except.ok (teardownOf sampleLiveState)
    ∧ (teardownOf sampleLiveState).connectionState = ConnectionState.disconnected
    ∧ (teardownOf sampleLiveState).connectionState ≠ ConnectionState.error := by
  refine ⟨rfl, rfl, by decide⟩

/-- C2 (amended): the error callback sets the connection state to Error and
then routes through exactly the disconnect() teardown; that teardown ends by
setting the state to Disconnected, so the state exposed to the UI after the
callback completes is Disconnected — Error is visible only transiently
between the two updates. -/
theorem c2_amended_error_teardown (s : ManagerState) (h : ctxRefsLive s = true) :
    onErrorHandler s = disconnect { s with connectionState := ConnectionState.error }
    ∧ ({ s with connectionState := ConnectionState.error} : ManagerState).connectionState
        = ConnectionState.error
    ∧ onErrorHandler s = Except.ok (teardownOf s)
    ∧ (teardownOf s).connectionState = ConnectionState.disconnected := by
  refine ⟨rfl, rfl, ?_, rfl⟩
  have h' : ctxRefsLive { s with connectionState := ConnectionState.error } = true := h
  have hok := disconnect_ok { s with connectionState := ConnectionState.error } h'
  exact hok

/-- Witness for C2 (amended) at the live sample state. -/
theorem c2_amended_witness :
    ctxRefsLive sampleLiveState = true
    ∧ onErrorHandler sampleLiveState = Except.ok (teardownOf sampleLiveState) :=
  ⟨by decide, (c2_amended_error_teardown sampleLiveState (by decide)).2.2.1⟩

/-- Asynchronous requests issued by the synchronous head of connect()
before its first suspension point. -/
inductive ConnectAction where
  | getUserMedia (audio : Bool) (video : Bool)
  deriving DecidableEq, Repr

/-- Embeds connect() of useLiveSession.ts up to its first await: when the
API key is absent (the empty string is the only falsy string, so
if (!apiKey) means apiKey = ""), it logs and returns immediately with no
state change and no action; otherwise it sets CONNECTING, creates the two
fresh audio contexts (16000 Hz input, 24000 Hz output), resets the
nextStart cursor to 0 and requests the capture devices (video requested
only when the audio-only flag is off). -/
def connectSync (apiKey : String) (audioOnly : Bool) (s : ManagerState) :
    ManagerState × List ConnectAction :=
  if apiKey = "" then (s, [])
  else
    ({ s with connectionState := ConnectionState.connecting,
              inputCtx := some ⟨16000, false⟩,
              outputCtx := some ⟨24000, false⟩,
              nextStart := 0 },
     [ConnectAction.getUserMedia true (!audioOnly)])

/-- C8: with no credential configured, connect() fails immediately with no
state change — the manager state (connection state included) is returned
untouched, no resource is acquired and no device or channel request is
issued. -/
theorem c8_connect_no_credential (s : ManagerState) (audioOnly : Bool) :
    connectSync "" audioOnly s = (s, []) := by
  simp [connectSync]

/- ------------------------------------------------------------------ -/
/- Capture pipeline and the audio-only toggle (onopen, frame timer)   -/
/- ------------------------------------------------------------------ -/

/-- Capture resources installed by the onopen callback: whether the script
processor audio tap is wired, and the frame timer id when one was
registered. -/
structure CaptureState where
  audioTapActive : Bool
  videoInterval : Option ℕ
  deriving DecidableEq, Repr

/-- Outbound effect of a frame-timer tick. -/
inductive CaptureAction where
  | sendFrame
  deriving DecidableEq, Repr

/-- Embeds one frame-timer tick: it first re-reads the live audio-only
toggle (if (isAudioOnlyRef.current) return) and becomes a no-op when set;
otherwise it samples and sends a frame only when the video element has
enough buffered data. A tick touches no capture resource either way. -/
def videoTick (audioOnlyNow videoReady : Bool) (s : CaptureState) :
    CaptureState × List CaptureAction :=
  if audioOnlyNow then (s, [])
  else if videoReady then (s, [CaptureAction.sendFrame])
  else (s, [])

/-- Hook state read by setIsAudioOnly: the audio-only flag (state plus the
ref synced to it by the effect) next to the capture resources and the two
audio contexts. -/
structure LiveToggleState where
  audioOnlyFlag : Bool
  capture : CaptureState
  inputCtx : Option AudioCtx
  outputCtx : Option AudioCtx
  deriving DecidableEq, Repr

/-- Embeds setIsAudioOnly: it updates the flag (and, via the sync effect,
isAudioOnlyRef) and nothing else. -/
def setAudioOnly (b : Bool) (ls : LiveToggleState) : LiveToggleState :=
  { ls with audioOnlyFlag := b }

/-- Embeds the capture setup of the onopen callback: with the input context
missing, setup is skipped entirely; otherwise the audio tap is always
wired, and the frame timer is registered only when the session did not
start audio-only and the canvas and video refs are present. -/
def onopenSetup (inputCtxPresent initialAudioOnly refsPresent : Bool) : CaptureState :=
  if !inputCtxPresent then ⟨false, none⟩
  else ⟨true, if !initialAudioOnly && refsPresent then some 1000 else none⟩

/-- Frames produced over a session: the browser fires timer callbacks only
when a timer was registered, so with no videoInterval no tick ever runs;
each tick sees the live toggle value and video readiness of its moment. -/
def runTicks (s : CaptureState) : List (Bool × Bool) → List CaptureAction
  | [] => []
  | t :: rest =>
    match s.videoInterval with
    | none => []
    | some _ => (videoTick t.1 t.2 s).2 ++ runTicks s rest

/-- C7: a frame-timer tick taken while the audio-only toggle is set is a
complete no-op (clause 1 — frame sampling stops); setIsAudioOnly changes
only the flag, leaving the audio tap wired and both audio contexts
untouched (clauses 2-4); and a session that started audio-only registers
no frame timer at connect time, so no frame is ever sampled regardless of
how the toggle is flipped later (clauses 5-7). -/
theorem c7_audio_only_toggle (s : CaptureState) (videoReady : Bool)
    (ls : LiveToggleState) (b : Bool) (ticks : List (Bool × Bool))
    (inputCtxPresent refsPresent : Bool) :
    videoTick true videoReady s = (s, [])
    ∧ (setAudioOnly b ls).capture = ls.capture
    ∧ (setAudioOnly b ls).inputCtx = ls.inputCtx
    ∧ (setAudioOnly b ls).outputCtx = ls.outputCtx
    ∧ (onopenSetup inputCtxPresent true refsPresent).videoInterval = none
    ∧ (onopenSetup true true refsPresent).audioTapActive = true
    ∧ runTicks (onopenSetup inputCtxPresent true refsPresent) ticks = [] := by
  refine ⟨rfl, rfl, rfl, rfl, ?_, rfl, ?_⟩
  · cases inputCtxPresent <;> rfl
  · cases ticks with
    | nil => cases inputCtxPresent <;> rfl
    | cons t rest => cases inputCtxPresent <;> rfl

/- ------------------------------------------------------------------ -/
/- Decode in flight across disconnect (onmessage audio vs teardown)   -/
/- ------------------------------------------------------------------ -/

/-- Interleaving state of the audio branch of onmessage against
disconnect(): the single output AudioContext object of the session (with
its closed flag), whether outputAudioContextRef.current still points to it,
whether a decode that already captured the context is in flight, the size
of the sourceNodes set, and a log of source.start calls recording whether
the captured context was already closed when each call was made. -/
structure RaceState where
  ctxClosed : Bool
  refLive : Bool
  pendingDecode : Bool
  sourceCount : ℕ
  startCallsOnClosed : List Bool
  deriving DecidableEq, Repr

/-- Embeds the audio branch of onmessage up to its await: the guard
if (audioData && outputAudioContextRef.current) is evaluated once, before
the decode; when it passes, `ctx` captures the context object and
decodeAudioData(audioData, ctx) is launched. -/
def recvAudioBegin (hasAudioData : Bool) (s : RaceState) : RaceState :=
  if hasAudioData && s.refLive then { s with pendingDecode := true } else s

/-- Embeds the output-context part of disconnect(): when the reference is
live, every tracked source is stopped and the set cleared, the context
object is closed, and the reference is nulled; the in-flight decode still
holds its captured pointer to the (now closed) object. -/
def disconnectOutput (s : RaceState) : RaceState :=
  if s.refLive then
    { s with sourceCount := 0, ctxClosed := true, refLive := false }
  else s

/-- Embeds the continuation of the audio branch after await
decodeAudioData: with no re-check of any reference, it calls
ctx.createBufferSource(), connects it, calls source.start on the captured
context in whatever state that object now is, and adds the node to the
sourceNodes set. -/
def decodeFinish (s : RaceState) : RaceState :=
  if s.pendingDecode then
    { s with pendingDecode := false,
             sourceCount := s.sourceCount + 1,
             startCallsOnClosed := s.startCallsOnClosed ++ [s.ctxClosed] }
  else s

/-- A connected session with a live output context and an empty source set. -/
def liveRaceInit : RaceState := ⟨false, true, false, 0, []⟩

/-- C3 fails on the code: when an audio payload passes the guard and its
decode is still in flight while disconnect() completes (closing the context
and nulling the reference), the late-completing continuation still attempts
playback — it performs a source.start on the torn-down context (the log
records a start call with the context closed) and re-adds a node to the
source set that teardown had cleared. -/
theorem c3_decode_after_teardown_still_schedules :
    (decodeFinish (disconnectOutput (recvAudioBegin true liveRaceInit))).startCallsOnClosed
      = [true]
    ∧ (disconnectOutput (recvAudioBegin true liveRaceInit)).refLive = false
    ∧ (disconnectOutput (recvAudioBegin true liveRaceInit)).ctxClosed = true
    ∧ (disconnectOutput (recvAudioBegin true liveRaceInit)).sourceCount = 0
    ∧ (decodeFinish (disconnectOutput (recvAudioBegin true liveRaceInit))).sourceCount = 1 := by
  decide
